import Mathlib

/-!
Verification development for the S3 migration orchestration engine.

The Go program under verification drives an S3 bulk-copy workflow: it
reconciles an S3 inventory configuration, locates the newest inventory
manifest inside a time window, filters the manifest with an S3 Select
query, submits one or two S3 Batch copy jobs and evaluates their success
ratio against a required threshold.

Each definition below is a shallow embedding of one function of the Go
source (`migration/types.go`, `util/helper.go`, `migration/s3copy.go`,
`cmd/*.go`): pure Go functions become Lean functions, remote calls become
explicit arguments holding the call's result, the process-terminating
`zap.L().Fatal` paths become explicit terminal outcomes, machine integers
become `Int` with explicit two's-complement truncation where the Go code
converts between widths, and Go's `float32` division of task counters is
modelled as exact division in `Rat`.
-/

/-- Two's-complement truncation of a Go `int64` value to `int32`, as
performed by the Go conversion `int32(x)`. -/
def toInt32 (x : Int) : Int :=
  (x + 2 ^ 31) % 2 ^ 32 - 2 ^ 31

/-- Characters of a string split at a separator character — Go
`strings.Split` for a single-character separator (defined on the
character list so that it evaluates by kernel reduction). -/
def splitCharList (c : Char) : List Char → List (List Char)
  | [] => [[]]
  | x :: xs =>
    if x = c then [] :: splitCharList c xs
    else
      match splitCharList c xs with
      | [] => [[x]]
      | l :: ls => (x :: l) :: ls

/-- Go `strings.Split(s, sep)` for the single-character separators the
program uses. -/
def splitOnChar (c : Char) (s : String) : List String :=
  (splitCharList c s.data).map String.mk

/-- Go `strings.TrimSpace`: drop whitespace from both ends. -/
def trimStr (s : String) : String :=
  String.mk (((s.data.dropWhile Char.isWhitespace).reverse.dropWhile Char.isWhitespace).reverse)

/-- Go `strings.HasSuffix`. -/
def endsWithStr (s suf : String) : Bool :=
  suf.data.isSuffixOf s.data

/-- Status of an S3 Batch job (`s3controltypes.JobStatus`); the values not
distinguished by the program are collapsed into `other`. -/
inductive JobStatus
  | active
  | complete
  | failed
  | cancelled
  | other
deriving DecidableEq, Repr

/-- Embedding of `util.IsTerminal`: a job status in which no further
updates to the job will occur. -/
def IsTerminal (status : JobStatus) : Bool :=
  status = JobStatus.complete || status = JobStatus.failed ||
    status = JobStatus.cancelled

/-- The part of `s3control.DescribeJobOutput` the program reads: the job
status and the progress summary's succeeded/total task counters (Go
`int64` values, embedded as `Int`). -/
structure DescribeJobOutput where
  status : JobStatus
  succeeded : Int
  total : Int
deriving DecidableEq, Repr

/-- One iteration of the accumulation loop inside
`util.GetJobSuccessThreshold`.  The Go body reads
`jobSuccessThreshold = +int32(...)` and `totalNumberOfTasks = +int32(...)`:
a plain assignment with unary plus, so each qualifying job replaces the
accumulator instead of being added to it. -/
def thresholdStep (acc : Int × Int) (job : Option DescribeJobOutput) : Int × Int :=
  match job with
  | none => acc
  | some j => if j.total < 1 then acc else (toInt32 j.succeeded, toInt32 j.total)

/-- Embedding of `util.GetJobSuccessThreshold`: fold the job list through
`thresholdStep` and divide the final counters (Go divides `float32`
values; the division is modelled exactly in `Rat`). -/
def GetJobSuccessThreshold (jobs : List (Option DescribeJobOutput)) : Rat :=
  let st := jobs.foldl thresholdStep ((0 : Int), (0 : Int))
  if 0 < st.2 then (st.1 : Rat) / (st.2 : Rat) else 0

/-- The last job of the list that is non-nil and has at least one task:
the job whose counters survive the assignment-instead-of-accumulation in
`util.GetJobSuccessThreshold`. -/
def lastQualifyingJob : List (Option DescribeJobOutput) → Option DescribeJobOutput
  | [] => none
  | none :: rest => lastQualifyingJob rest
  | some j :: rest =>
    if j.total < 1 then lastQualifyingJob rest
    else
      match lastQualifyingJob rest with
      | none => some j
      | some j2 => some j2

/-- Single-quote character (ASCII 39), used to build the SQL string
literals the Go code writes with `fmt.Sprintf`. -/
def tick : String := String.singleton (Char.ofNat 39)

/-- Quote a value as an SQL string literal, as the Go format verbs
`'%s'` do. -/
def sqlQuote (s : String) : String := tick ++ s ++ tick

/-- Embedding of the squirrel select builder the Go code drives: the
projected columns, the FROM clause and the accumulated WHERE predicates. -/
structure SelectBuilder where
  cols : List String
  table : String
  conds : List String
deriving DecidableEq, Repr

/-- Embedding of squirrel's `.Where(pred)`: predicates accumulate in call
order. -/
def SelectBuilder.addWhere (b : SelectBuilder) (p : String) : SelectBuilder :=
  SelectBuilder.mk b.cols b.table (b.conds ++ [p])

/-- Embedding of squirrel's `.ToSql()` rendering: `SELECT cols FROM table`
plus a WHERE clause joining the predicates with AND when any exist. -/
def SelectBuilder.toSql (b : SelectBuilder) : String :=
  "SELECT " ++ String.intercalate ", " b.cols ++ " FROM " ++ b.table ++
    (if b.conds.isEmpty then "" else " WHERE " ++ String.intercalate " AND " b.conds)

/-- The builder `sq.Select("s._1", "s._2").From("s3object s")` every query
starts from. -/
def baseSelect : SelectBuilder :=
  SelectBuilder.mk ["s._1", "s._2"] "s3object s" []

/-- Index of the last occurrence of a character, -1 when absent — the
`strings.LastIndex` test the Go schema parser performs (the parser only
compares the index against 1, for which byte and character positions
agree). -/
def lastIndexOfChar (c : Char) (s : String) : Int :=
  s.toList.enum.foldl (fun acc p => if p.2 = c then (p.1 : Int) else acc) (-1)

/-- Embedding of `util.parseFileSchema`: reject a schema whose last comma
sits before index 1, otherwise split on commas and trim each column name.
(The Go map from trimmed name to positional column is represented by the
trimmed list itself; `getColumnName` reproduces the map lookup.) -/
def parseFileSchema (fileSchema : String) : Option (List String) :=
  if lastIndexOfChar ',' fileSchema < 1 then none
  else some ((splitOnChar ',' fileSchema).map trimStr)

/-- Lookup of a column in the parsed schema, producing the positional
column `s._<i+1>`.  The Go map is written left to right, so a duplicate
column name keeps its last position — reproduced by the overwrite in this
fold. -/
def getColumnName (cols : List String) (colName : String) : Option String :=
  cols.enum.foldl
    (fun acc p => if p.2 = colName then some ("s._" ++ toString (p.1 + 1)) else acc)
    none

/-- The column-name constants of `util` (`LastUpdatedColumn`,
`IsLatestColumn`). -/
def LastUpdatedColumn : String := "LastUpdated"

/-- The `IsLatestColumn` constant of `util`. -/
def IsLatestColumn : String := "IsLatest"

/-- The error `getColumnName` produces in Go when the schema lacks a
required column. -/
def errMissingField (colName fileSchema : String) : String :=
  "file schema does not contain field " ++ sqlQuote colName ++
    ", Provided file schema: " ++ sqlQuote fileSchema

/-- Embedding of `util.GetQueryExpression`.  Times are embedded as
`Option String`: `none` is a zero `time.Time` (`IsZero`) and `some s`
a non-zero time whose ISO rendering (`Format("2006-01-02T15:04:05")`)
is `s`.  A missing `LastUpdated` column is logged and skipped in Go;
here the predicate is simply not added. -/
def GetQueryExpression (fileSchema : String) (startDt endDt : Option String)
    (latestOnly : String) (versioningDisabled : Bool) : Except String String :=
  if versioningDisabled then Except.ok baseSelect.toSql
  else
    match parseFileSchema fileSchema with
    | none => Except.error ("invalid input file schema: " ++ sqlQuote fileSchema)
    | some cols =>
      let step1 : Except String SelectBuilder :=
        if 0 < (trimStr latestOnly).length then
          match getColumnName cols IsLatestColumn with
          | none => Except.error (errMissingField IsLatestColumn fileSchema)
          | some colName =>
            if latestOnly = "Yes" then
              Except.ok (baseSelect.addWhere (colName ++ " = " ++ sqlQuote "true"))
            else if latestOnly = "No" then
              Except.ok (baseSelect.addWhere (colName ++ " = " ++ sqlQuote "false"))
            else Except.ok baseSelect
        else Except.ok baseSelect
      match step1 with
      | Except.error e => Except.error e
      | Except.ok sql1 =>
        let sql2 :=
          match startDt, endDt with
          | some sdt, some edt =>
            match getColumnName cols LastUpdatedColumn with
            | none => sql1
            | some colName =>
              sql1.addWhere (colName ++ " BETWEEN " ++ sqlQuote sdt ++ " AND " ++ sqlQuote edt)
          | some sdt, none =>
            match getColumnName cols LastUpdatedColumn with
            | none => sql1
            | some colName => sql1.addWhere (colName ++ " < " ++ sqlQuote sdt)
          | none, some edt =>
            match getColumnName cols LastUpdatedColumn with
            | none => sql1
            | some colName => sql1.addWhere (colName ++ " > " ++ sqlQuote edt)
          | none, none => sql1
        Except.ok sql2.toSql

/-- The predicates the spec's filter table calls for: an equality
predicate on the latest column for a set latest-only selector, and on the
last-updated column BETWEEN for two bounds, less-than for only a start
bound, greater-than for only an end bound; a missing last-updated column
omits the date predicate. -/
def specPredicates (cols : List String) (startDt endDt : Option String)
    (latestOnly : String) : List String :=
  (if latestOnly = "Yes" then
    match getColumnName cols IsLatestColumn with
    | some c => [c ++ " = " ++ sqlQuote "true"]
    | none => []
  else if latestOnly = "No" then
    match getColumnName cols IsLatestColumn with
    | some c => [c ++ " = " ++ sqlQuote "false"]
    | none => []
  else []) ++
  (match getColumnName cols LastUpdatedColumn, startDt, endDt with
  | some c, some sdt, some edt => [c ++ " BETWEEN " ++ sqlQuote sdt ++ " AND " ++ sqlQuote edt]
  | some c, some sdt, none => [c ++ " < " ++ sqlQuote sdt]
  | some c, none, some edt => [c ++ " > " ++ sqlQuote edt]
  | _, _, _ => [])


/-- Events arriving on the S3 Select event stream channel
(`SelectObjectContentEventStream.Events()`): a Records payload, the End
marker, or the Progress/Stats/Continuation events the reader discards. -/
inductive SelectEvent
  | records (payload : List UInt8)
  | endEvent
  | progressEvent
deriving DecidableEq, Repr

/-- Result of one `Read` call: success, `io.EOF`, or `io.ErrClosedPipe`. -/
inductive ReadResult
  | noErr
  | eofErr
  | closedPipeErr
deriving DecidableEq, Repr

/-- What a `Read` call produces: the byte count, the error value, and the
reader state left behind (pending channel events, leftover payload
bytes, closed flag). -/
structure ReadOutcome where
  bytesRead : Nat
  result : ReadResult
  events : List SelectEvent
  remaining : List UInt8
  closed : Bool
deriving DecidableEq, Repr

/-- Embedding of the loop body of `util.S3SelectReader.Read`.  The event
channel is the list `evts`; taking its head is a channel receive and the
empty list is a closed channel (`ok == false`).  Each iteration first
copies leftover bytes into the caller buffer (of size `blen`), returning
when the buffer fills, then receives one event: a Records payload is
copied with any overflow stashed in `remaining`, the End marker returns
the bytes read so far or `io.EOF`, a closed channel does the same but
also sets the closed flag, and other events are skipped. -/
def readLoop (blen : Nat) : List SelectEvent → List UInt8 → Nat → ReadOutcome
  | evts, remaining, total =>
    let ncopy := min (blen - total) remaining.length
    let total1 := total + ncopy
    let rem1 := remaining.drop ncopy
    if 0 < remaining.length ∧ total1 = blen then
      ReadOutcome.mk total1 ReadResult.noErr evts rem1 false
    else
      match evts with
      | [] =>
        if 0 < total1 then ReadOutcome.mk total1 ReadResult.noErr [] rem1 true
        else ReadOutcome.mk 0 ReadResult.eofErr [] rem1 true
      | SelectEvent.records payload :: rest =>
        let n2 := min (blen - total1) payload.length
        let total2 := total1 + n2
        let rem2 := if n2 < payload.length then payload.drop n2 else rem1
        if total2 = blen then ReadOutcome.mk total2 ReadResult.noErr rest rem2 false
        else readLoop blen rest rem2 total2
      | SelectEvent.endEvent :: rest =>
        if 0 < total1 then ReadOutcome.mk total1 ReadResult.noErr rest rem1 false
        else ReadOutcome.mk 0 ReadResult.eofErr rest rem1 false
      | SelectEvent.progressEvent :: rest => readLoop blen rest rem1 total1

/-- Embedding of `util.S3SelectReader`: the pending stream events, the
leftover bytes of the previous Records payload, and the closed flag. -/
structure S3SelectReader where
  events : List SelectEvent
  remaining : List UInt8
  closed : Bool
deriving DecidableEq, Repr

/-- Embedding of `util.S3SelectReader.Read` for a caller buffer of size
`blen`: a closed reader immediately returns `io.ErrClosedPipe`; otherwise
the read loop runs and the reader state is updated from its outcome. -/
def S3SelectReader.read (r : S3SelectReader) (blen : Nat) :
    Nat × ReadResult × S3SelectReader :=
  if r.closed then (0, ReadResult.closedPipeErr, r)
  else
    let out := readLoop blen r.events r.remaining 0
    (out.bytesRead, out.result, S3SelectReader.mk out.events out.remaining out.closed)

/-- An S3 object as the locator sees it: key and last-modified time.
Timestamps are embedded as hours (`Int`), the granularity at which the
program computes its lookback window. -/
structure S3Object where
  key : String
  lastModified : Int
deriving DecidableEq, Repr

/-- Embedding of `migration.objectDateDescending`:
`b.LastModified.Compare(*a.LastModified)`, the comparator handed to
`slices.SortFunc`. -/
def objectDateDescending (a b : S3Object) : Int :=
  if b.lastModified < a.lastModified then -1
  else if b.lastModified = a.lastModified then 0
  else 1

/-- Search arguments the inventory-configuration manager hands to the
manifest locator (`inventoryManifestFinderArgs`). -/
structure InventoryManifestFinderArgs where
  bucketName : String
  pfx : String
  dateWindow : Int
deriving DecidableEq, Repr

/-- Window start used by `getLatestManifest`:
`time.Now().Add(time.Duration(DateWindow) * time.Hour * 48)`, i.e. the
current time plus `dateWindow` 48-hour units (the window is negative). -/
def windowStartHours (now dateWindow : Int) : Int :=
  now + dateWindow * 48

/-- The manifest key suffix `getLatestManifest` filters on. -/
def manifestSuffix : String := "manifest.json"

/-- The filter loop of `getLatestManifest`: keep listed objects whose key
ends in `manifest.json` and whose last-modified time is strictly after
the window start. -/
def manifestCandidates (windowStart : Int) (contents : List S3Object) : List S3Object :=
  contents.filter (fun o => endsWithStr o.key manifestSuffix && windowStart < o.lastModified)

/-- Outcome of one `getLatestManifest` call.  `fatalExit` embeds
`zap.L().Fatal`, which terminates the process; `notFound` is the
`nil, nil` "not found yet" return; `found` carries the selected object. -/
inductive LocatorOutcome
  | fatalExit (msg : String)
  | notFound
  | found (obj : S3Object)
deriving DecidableEq, Repr

/-- Embedding of `migration.getLatestManifest`.  The `ListObjectsV2`
answer is the `listResult` argument: `Except.error` is a transport-level
failure, on which the Go code calls `zap.L().Fatal` (process exit) rather
than returning the error; `Except.ok` carries the listed objects, which
are filtered, sorted by last-modified descending (`slices.SortFunc` with
`objectDateDescending`, embedded as a merge sort with the induced order)
and the first is returned, or `notFound` when none qualifies. -/
def getLatestManifest (now : Int) (fa : InventoryManifestFinderArgs)
    (listResult : Except String (List S3Object)) : LocatorOutcome :=
  let windowStart := windowStartHours now fa.dateWindow
  match listResult with
  | Except.error _ => LocatorOutcome.fatalExit "call to ListObjectsV2 failed"
  | Except.ok contents =>
    let manifests := manifestCandidates windowStart contents
    if manifests.isEmpty then LocatorOutcome.notFound
    else
      match manifests.mergeSort (fun a b => decide (objectDateDescending a b ≤ 0)) with
      | [] => LocatorOutcome.notFound
      | o :: _ => LocatorOutcome.found o

/-- Inventory schedule frequency (`s3types.InventoryFrequency`): the
program only distinguishes Weekly from everything else. -/
inductive InventoryFrequency
  | daily
  | weekly
deriving DecidableEq, Repr

/-- The fields of a fetched inventory configuration that
`ensureS3InventoryConfig` reads: enabled flag, schedule frequency, the
destination bucket ARN and the optional destination prefix. -/
structure InventoryConfiguration where
  isEnabled : Bool
  frequency : InventoryFrequency
  destinationBucketArn : String
  destinationPfx : Option String
deriving DecidableEq, Repr

/-- Error from `GetBucketInventoryConfiguration`: an API error with a
code (as matched by `errors.As` + `ErrorCode()`), or a non-API error,
which the Go error handling falls through. -/
inductive GetConfigError
  | apiError (code : String)
  | nonApiError (msg : String)
deriving DecidableEq, Repr

/-- Substring after the last colon, `s[strings.LastIndex(s, ":")+1:]` —
how the destination bucket name is cut out of its ARN. -/
def afterLastColon (s : String) : String :=
  (splitOnChar ':' s).getLastD ""

/-- The finder arguments derived from an existing enabled configuration:
destination bucket from the ARN, prefix `bucket/configName/` (prefixed by
the configuration destination prefix when present), and a date window of
-8 for a weekly schedule, else -1. -/
def finderArgsOfConfig (bucket configName : String)
    (cfg : InventoryConfiguration) : InventoryManifestFinderArgs :=
  let basePfx := bucket ++ "/" ++ configName ++ "/"
  let pfx :=
    match cfg.destinationPfx with
    | some p => p ++ "/" ++ basePfx
    | none => basePfx
  InventoryManifestFinderArgs.mk (afterLastColon cfg.destinationBucketArn) pfx
    (if cfg.frequency = InventoryFrequency.weekly then -8 else -1)

/-- Embedding of `migration.ensureS3InventoryConfig`.  The remote calls
appear as arguments: `getOut`/`getErr` are the fetch results and `putErr`
the result of the (at most one) `PutBucketInventoryConfiguration` call.
The first component counts how many put calls were issued.  An API error
other than NoSuchConfiguration, or NoSuchConfiguration when the caller
does not own the configuration, returns the error; a fetched disabled
configuration the caller does not own is refused; a fetched enabled
configuration is used as is (no write); everything else takes the
create/enable path, whose put error is returned alongside the
freshly-assumed default finder arguments. -/
def ensureS3InventoryConfig (getOut : Option InventoryConfiguration)
    (getErr : Option GetConfigError) (putErr : Option String)
    (bucket configName : String) (shouldUpdate : Bool) :
    Nat × Except String InventoryManifestFinderArgs :=
  let earlyErr : Option String :=
    match getErr with
    | none => none
    | some (GetConfigError.apiError code) =>
      if code ≠ "NoSuchConfiguration" then
        some ("get bucket inventory configuration failed: " ++ code)
      else if shouldUpdate then none
      else some "non-default inventory config does not exist"
    | some (GetConfigError.nonApiError _) => none
  match earlyErr with
  | some e => (0, Except.error e)
  | none =>
    let createOrEnable : Nat × Except String InventoryManifestFinderArgs :=
      (1,
        match putErr with
        | some e => Except.error e
        | none =>
          Except.ok (InventoryManifestFinderArgs.mk bucket
            (bucket ++ "/" ++ configName ++ "/") (-1)))
    match getOut with
    | none => createOrEnable
    | some cfg =>
      if cfg.isEnabled = false ∧ shouldUpdate = false then
        (0, Except.error ("non-default inventory config " ++ configName ++ " is disabled"))
      else if cfg.isEnabled then
        (0, Except.ok (finderArgsOfConfig bucket configName cfg))
      else createOrEnable

/-- Outcome of the manifest-discovery retry loop in `migration.Run`:
either a manifest was found or the loop exhausted its attempts and the
process exits fatally ("No inventory manifest found within timeout
period").  `calls` counts locator invocations and `sleeps` the
sleep-at-the-retry-interval pauses taken. -/
inductive RetryOutcome
  | found (manifest : S3Object) (calls sleeps : Nat)
  | fatalNotFound (calls sleeps : Nat)
deriving DecidableEq, Repr

/-- Embedding of the manifest-discovery loop of `migration.Run`: attempt
`k` asks the locator (whose Go embedding never returns a non-nil error,
so an attempt yields a manifest or nothing); on nothing, the loop exits
fatally once the counter exceeds 23, otherwise increments it, sleeps for
the retry interval and goes round again. -/
def manifestRetryLoop (attempt : Nat → Option S3Object) (k : Nat) (ctr : Int) :
    RetryOutcome :=
  match attempt k with
  | some m => RetryOutcome.found m (k + 1) k
  | none =>
    if h : 23 < ctr then RetryOutcome.fatalNotFound (k + 1) k
    else manifestRetryLoop attempt (k + 1) (ctr + 1)
termination_by (24 - ctr).toNat
decreasing_by
  simp_wf
  omega

/-- Which of the two batch jobs `migration.getJobParams` builds:
a version job (latest-only "Yes") and/or a non-version job. -/
structure JobInputParams where
  hasVersionJob : Bool
  hasNonVersionJob : Bool
deriving DecidableEq, Repr

/-- The branch structure of `migration.getJobParams`: a non-versioned
bucket gets only the non-version job; latest-only "Yes" gets only the
version job; otherwise both jobs are built (version job for latest-only
"Yes", non-version job for latest-only "No"). -/
def getJobParamsShape (versioningDisabled : Bool) (latestOnly : String) : JobInputParams :=
  if versioningDisabled then JobInputParams.mk false true
  else if latestOnly = "Yes" then JobInputParams.mk true false
  else JobInputParams.mk true true

/-- Embedding of `migration.pollJobResult`: describe the job until a
terminal status appears; `descs` is the stream of DescribeJob answers and
the result is the first terminal one (`none` embeds the Go loop never
terminating because no terminal status ever arrives). -/
def pollJobResult (descs : List DescribeJobOutput) : Option DescribeJobOutput :=
  descs.find? (fun d => IsTerminal d.status)

/-- Observable steps of the job submission phase of `migration.Run`:
job creations, polls, the two fatal threshold exits, success, and a
never-terminating poll. -/
inductive RunEvent
  | createNonLatestJob
  | pollNonLatestJob
  | thresholdGateFatal
  | createLatestJob
  | pollLatestJob
  | finalThresholdFatal
  | runSuccess
  | pollDiverged
deriving DecidableEq, Repr

/-- The final threshold check at the end of `migration.Run`:
`GetJobSuccessThreshold(nonVersionJobResult, versionJobResult)` against
the required threshold; below is a fatal exit, otherwise success. -/
def finalCheck (req : Rat) (nonVerRes verRes : Option DescribeJobOutput) : List RunEvent :=
  if GetJobSuccessThreshold [nonVerRes, verRes] < req then [RunEvent.finalThresholdFatal]
  else [RunEvent.runSuccess]

/-- The version-job stage of `migration.Run`: when a version job exists
and a non-version job was run, its result alone must clear the required
threshold before the version job is created (below-threshold is a fatal
exit); then the version job is created and polled and the final check
runs. -/
def runVersionStage (params : JobInputParams) (req : Rat)
    (nonVerRes : Option DescribeJobOutput) (verPolls : List DescribeJobOutput) :
    List RunEvent :=
  if params.hasVersionJob then
    if params.hasNonVersionJob ∧ nonVerRes ≠ none ∧ GetJobSuccessThreshold [nonVerRes] < req then
      [RunEvent.thresholdGateFatal]
    else
      match pollJobResult verPolls with
      | none => [RunEvent.createLatestJob, RunEvent.pollDiverged]
      | some verRes =>
        [RunEvent.createLatestJob, RunEvent.pollLatestJob] ++ finalCheck req nonVerRes (some verRes)
  else finalCheck req nonVerRes none

/-- The job submission phase of `migration.Run` (after job parameters are
built): the non-version job, when present, is created first and polled to
a terminal state (`nonVerPolls`/`verPolls` are the DescribeJob answer
streams), then the version stage runs. -/
def runJobsPhase (params : JobInputParams) (req : Rat)
    (nonVerPolls verPolls : List DescribeJobOutput) : List RunEvent :=
  if params.hasNonVersionJob then
    match pollJobResult nonVerPolls with
    | none => [RunEvent.createNonLatestJob, RunEvent.pollDiverged]
    | some nonVerRes =>
      [RunEvent.createNonLatestJob, RunEvent.pollNonLatestJob] ++
        runVersionStage params req (some nonVerRes) verPolls
  else runVersionStage params req none verPolls

/-- One entry of the manifest document's `files` list. -/
structure ManifestFileEntry where
  key : String
deriving DecidableEq, Repr

/-- The inventory `manifest.json` document as parsed by the program:
the data-file references and the declared file schema. -/
structure ManifestJsonDoc where
  files : List ManifestFileEntry
  fileSchema : String
deriving DecidableEq, Repr

/-- Embedding of Go `strings.TrimSuffix`. -/
def trimSuffix (s suf : String) : String :=
  if endsWithStr s suf then String.mk (s.data.take (s.data.length - suf.data.length)) else s

/-- The user filters `migration.Run` builds from its arguments
(`userFilters`), with times embedded as in `GetQueryExpression`. -/
structure UserFilters where
  startDate : Option String
  endDate : Option String
  latestOnly : String
  kmsID : String
deriving DecidableEq, Repr

/-- `userFilters` with the latest-only selector replaced, as
`getJobParams` does before each `createJobInput` call. -/
def withLatestOnly (filters : UserFilters) (v : String) : UserFilters :=
  UserFilters.mk filters.startDate filters.endDate v filters.kmsID

/-- The plan of `migration.filterManifestCsv` on a parsed manifest
document: the S3 Select expression it would run (built from the schema
and filters) and the upload key — the first data file's key with its
`.gz` suffix trimmed.  `none` embeds the panic on an empty `files`
list (`manifestJson.Files[0]`). -/
def filterManifestCsvPlan (doc : ManifestJsonDoc) (filters : UserFilters)
    (versioningDisabled : Bool) : Option (Except String String × String) :=
  match doc.files.head? with
  | none => none
  | some f =>
    some (GetQueryExpression doc.fileSchema filters.startDate filters.endDate
            filters.latestOnly versioningDisabled,
          trimSuffix f.key ".gz")

/-- The upload key `filterManifestCsv` computes, independent of filters. -/
def filteredManifestUploadKey (doc : ManifestJsonDoc) : Option String :=
  doc.files.head?.map (fun f => trimSuffix f.key ".gz")

/-- The two upload keys of a dual-job versioned run: `getJobParams` with
versioning enabled and no latest-only filter invokes the filter pipeline
once with latest-only "Yes" (version job) and once with "No"
(non-version job), on the same manifest document. -/
def dualJobUploadKeys (doc : ManifestJsonDoc) (filters : UserFilters) :
    Option String × Option String :=
  ((filterManifestCsvPlan doc (withLatestOnly filters "Yes") false).map (fun p => p.2),
   (filterManifestCsvPlan doc (withLatestOnly filters "No") false).map (fun p => p.2))

/-! ## Theorems -/

theorem foldl_thresholdStep_eq (jobs : List (Option DescribeJobOutput)) (acc : Int × Int) :
    jobs.foldl thresholdStep acc =
      match lastQualifyingJob jobs with
      | none => acc
      | some j => (toInt32 j.succeeded, toInt32 j.total) := by
  induction jobs generalizing acc with
  | nil => rfl
  | cons job rest ih =>
    match job with
    | none => simpa [lastQualifyingJob, thresholdStep] using ih acc
    | some j =>
      by_cases hj : j.total < 1
      · simpa [lastQualifyingJob, thresholdStep, hj] using ih acc
      · have h2 := ih (toInt32 j.succeeded, toInt32 j.total)
        simp only [List.foldl_cons, thresholdStep, if_neg hj, lastQualifyingJob] at h2 ⊢
        rw [h2]
        cases lastQualifyingJob rest <;> simp

/-- C1 (counterexample). For the spec's worked example, jobs with
(succeeded, total) pairs (8, 10) and (15, 20), the code returns 15/20 =
3/4 — the last job's own ratio — not the claimed aggregate 23/30. -/
theorem getJobSuccessThreshold_pair_counterexample :
    GetJobSuccessThreshold
        [some (DescribeJobOutput.mk JobStatus.complete 8 10),
         some (DescribeJobOutput.mk JobStatus.complete 15 20)] = 3 / 4 ∧
      (3 / 4 : Rat) ≠ 23 / 30 := by
  constructor
  · norm_num [GetJobSuccessThreshold, thresholdStep, toInt32]
  · norm_num

/-- C1 (amended). `GetJobSuccessThreshold` returns the success ratio of
the last non-nil job whose total task count is at least 1 — each
qualifying job overwrites the accumulator (`= +x`, not `+= x`) — and 0
when no job qualifies.  The counters pass through the Go `int32`
conversion before the final division and positivity test. -/
theorem getJobSuccessThreshold_eq_last_job (jobs : List (Option DescribeJobOutput)) :
    GetJobSuccessThreshold jobs =
      match lastQualifyingJob jobs with
      | none => 0
      | some j =>
        if 0 < toInt32 j.total then (toInt32 j.succeeded : Rat) / (toInt32 j.total : Rat)
        else 0 := by
  unfold GetJobSuccessThreshold
  rw [foldl_thresholdStep_eq]
  cases lastQualifyingJob jobs <;> simp

/-- C3. A transport-level failure of the underlying ListObjectsV2 call
makes `getLatestManifest` terminate the process through `zap.L().Fatal`
("call to ListObjectsV2 failed") instead of returning the error to the
caller — `Run`'s recoverable-error branch for this call is unreachable. -/
theorem getLatestManifest_transport_error_fatal :
    getLatestManifest 0 (InventoryManifestFinderArgs.mk "bucket" "pre/" (-1))
        (Except.error "connection reset by peer") =
      LocatorOutcome.fatalExit "call to ListObjectsV2 failed" := rfl

/-- C10. In a dual-job versioned run the filter pipeline is invoked once
with latest-only "Yes" and once with "No" on the same manifest document,
and both invocations compute the same upload key: the document's first
data-file key with its ".gz" suffix trimmed. -/
theorem dualJobUploadKeys_equal (doc : ManifestJsonDoc) (filters : UserFilters) :
    (dualJobUploadKeys doc filters).1 = (dualJobUploadKeys doc filters).2 ∧
    (dualJobUploadKeys doc filters).1 = filteredManifestUploadKey doc := by
  cases hf : doc.files with
  | nil =>
    simp [dualJobUploadKeys, filterManifestCsvPlan, filteredManifestUploadKey, hf]
  | cons f rest =>
    simp [dualJobUploadKeys, filterManifestCsvPlan, filteredManifestUploadKey, hf]

/-- C7 (counterexample). A reader that consumed the stream's End marker
signals end-of-data (`io.EOF`) without setting the closed flag; the next
read, with the channel then closed, returns `io.EOF` again — not the
"closed" error the claim requires of every read after end-of-data. -/
theorem s3SelectReader_end_marker_counterexample :
    (S3SelectReader.read (S3SelectReader.mk [SelectEvent.endEvent] [] false) 4).2.1 =
        ReadResult.eofErr ∧
      (S3SelectReader.read (S3SelectReader.mk [SelectEvent.endEvent] [] false) 4).2.2.closed =
        false ∧
      ((S3SelectReader.read (S3SelectReader.mk [SelectEvent.endEvent] [] false) 4).2.2.read 4).2.1 =
        ReadResult.eofErr ∧
      ((S3SelectReader.read (S3SelectReader.mk [SelectEvent.endEvent] [] false) 4).2.2.read 4).2.1 ≠
        ReadResult.closedPipeErr := by
  decide

/-- C7 (amended). Only a read that signals end-of-data because the event
channel closed marks the reader closed, and from then on every read call
returns the "closed" error (`io.ErrClosedPipe`) without touching the
stream; a read that hits the closed channel with no buffered bytes
returns `io.EOF` once and leaves the reader closed.  (After end-of-data
via the End marker the reader is not marked closed — see the
counterexample — so the claim holds only for the channel-closure case.) -/
theorem s3SelectReader_closed_semantics (r : S3SelectReader) (blen : Nat) :
    (r.closed = true → r.read blen = (0, ReadResult.closedPipeErr, r)) ∧
    (r.closed = false → r.events = [] → r.remaining = [] →
      (r.read blen).2.1 = ReadResult.eofErr ∧
        (r.read blen).2.2.closed = true ∧
        ∀ blen2 : Nat,
          (r.read blen).2.2.read blen2 = (0, ReadResult.closedPipeErr, (r.read blen).2.2)) := by
  constructor
  · intro h
    simp [S3SelectReader.read, h]
  · intro hc he hr
    have hread : r.read blen = (0, ReadResult.eofErr, S3SelectReader.mk [] [] true) := by
      simp [S3SelectReader.read, hc, readLoop, he, hr]
    refine ⟨by rw [hread], by rw [hread], ?_⟩
    intro blen2
    rw [hread]
    simp [S3SelectReader.read]

/-- C6 (counterexample). For a weekly schedule the derived date window is
-8 units of 48 hours, so the locator's window start lies 384 hours (16
days) before the current time — not the 8-day (192-hour) window the claim
states, nor 8 half-day units (96 hours). -/
theorem inventory_window_weekly_counterexample :
    (finderArgsOfConfig "srcbucket" "bulk-copy-inventory"
          (InventoryConfiguration.mk true InventoryFrequency.weekly "arn:aws:s3:::dest"
            none)).dateWindow = -8 ∧
      windowStartHours 0 (-8) = -384 ∧
      ((-384 : Int) ≠ -(8 * 24) ∧ (-384 : Int) ≠ -(8 * 12)) := by
  refine ⟨rfl, by decide, by decide, by decide⟩

/-- C6 (amended). An enabled inventory configuration yields, without
mutation, finder arguments whose date window is -8 for a weekly schedule
and -1 otherwise, in units of 48 hours: the locator's window start is the
current time minus 16 days (384 hours) for weekly and minus 2 days (48
hours) for any other schedule. -/
theorem inventory_window_units (now : Int) (bucket configName : String)
    (cfg : InventoryConfiguration) (putErr : Option String) (shouldUpdate : Bool) :
    (cfg.isEnabled = true →
      ensureS3InventoryConfig (some cfg) none putErr bucket configName shouldUpdate =
        (0, Except.ok (finderArgsOfConfig bucket configName cfg))) ∧
    (finderArgsOfConfig bucket configName cfg).dateWindow =
      (if cfg.frequency = InventoryFrequency.weekly then -8 else -1) ∧
    windowStartHours now (finderArgsOfConfig bucket configName cfg).dateWindow =
      now - (if cfg.frequency = InventoryFrequency.weekly then 16 else 2) * 24 := by
  refine ⟨?_, ?_, ?_⟩
  · intro hen
    simp [ensureS3InventoryConfig, hen]
  · simp [finderArgsOfConfig]
  · cases hfq : cfg.frequency <;> simp [finderArgsOfConfig, windowStartHours, hfq] <;> ring

theorem manifestRetryLoop_step (attempt : Nat → Option S3Object) (k : Nat) (ctr : Int)
    (ha : attempt k = none) (hc : ¬ 23 < ctr) :
    manifestRetryLoop attempt k ctr = manifestRetryLoop attempt (k + 1) (ctr + 1) := by
  rw [manifestRetryLoop, ha]
  simp [hc]

theorem manifestRetryLoop_stop (attempt : Nat → Option S3Object) (k : Nat) (ctr : Int)
    (ha : attempt k = none) (hc : 23 < ctr) :
    manifestRetryLoop attempt k ctr = RetryOutcome.fatalNotFound (k + 1) k := by
  rw [manifestRetryLoop, ha]
  simp [hc]

theorem manifestRetryLoop_countdown (attempt : Nat → Option S3Object)
    (h : ∀ k, attempt k = none) :
    ∀ n : Nat, n ≤ 24 → ∀ k : Nat,
      manifestRetryLoop attempt k (24 - (n : Int)) =
        RetryOutcome.fatalNotFound (k + n + 1) (k + n) := by
  intro n
  induction n with
  | zero =>
    intro _ k
    simpa using manifestRetryLoop_stop attempt k 24 (h k) (by norm_num)
  | succ m ih =>
    intro hm k
    have hc : ¬ 23 < (24 : Int) - ((m : Int) + 1) := by omega
    have hstep := manifestRetryLoop_step attempt k (24 - ((m : Int) + 1)) (h k) hc
    have harg : (24 : Int) - ((m : Int) + 1) + 1 = 24 - (m : Int) := by ring
    rw [harg] at hstep
    have := ih (by omega) (k + 1)
    push_cast at hstep ⊢
    rw [hstep, this]
    congr 1 <;> omega

/-- C5. When the locator never finds a manifest (and, as the code
guarantees, never returns an error), the manifest-discovery loop of `Run`
calls the locator 25 times in total — the initial attempt plus exactly 24
retries, each preceded by one sleep at the configured interval — and then
terminates the run fatally with the "no inventory manifest found" exit. -/
theorem manifestRetryLoop_exhausts (attempt : Nat → Option S3Object)
    (h : ∀ k, attempt k = none) :
    manifestRetryLoop attempt 0 0 = RetryOutcome.fatalNotFound 25 24 := by
  have := manifestRetryLoop_countdown attempt h 24 (by norm_num) 0
  simpa using this

/-- C5 (witness). The exhaustion theorem applied to the locator that
never finds anything. -/
theorem manifestRetryLoop_exhausts_witness :
    manifestRetryLoop (fun _ => none) 0 0 = RetryOutcome.fatalNotFound 25 24 :=
  manifestRetryLoop_exhausts (fun _ => none) (fun _ => rfl)

/-- C8. When the fetched inventory configuration exists and is enabled,
`ensureS3InventoryConfig` issues no put call and returns the finder
arguments derived from the remote configuration unchanged; and on every
path through the function at most one create/enable write is issued. -/
theorem ensureS3InventoryConfig_idempotent (getOut : Option InventoryConfiguration)
    (getErr : Option GetConfigError) (putErr : Option String)
    (bucket configName : String) (shouldUpdate : Bool) :
    (∀ cfg, getErr = none → getOut = some cfg → cfg.isEnabled = true →
      ensureS3InventoryConfig getOut getErr putErr bucket configName shouldUpdate =
        (0, Except.ok (finderArgsOfConfig bucket configName cfg))) ∧
    (ensureS3InventoryConfig getOut getErr putErr bucket configName shouldUpdate).1 ≤ 1 := by
  constructor
  · intro cfg hge hgo hen
    subst hge
    subst hgo
    simp [ensureS3InventoryConfig, hen]
  · unfold ensureS3InventoryConfig
    rcases getErr with _ | err
    · rcases getOut with _ | cfg
      · simp
      · by_cases h1 : cfg.isEnabled = false ∧ shouldUpdate = false
        · simp [h1]
        · by_cases h2 : cfg.isEnabled <;> simp [h1, h2]
          split <;> simp
    · rcases err with code | msg
      · by_cases hcode : code ≠ "NoSuchConfiguration"
        · simp [hcode]
        · by_cases hsu : shouldUpdate
          · rcases getOut with _ | cfg
            · simp [hcode, hsu]
            · by_cases h1 : cfg.isEnabled = false ∧ shouldUpdate = false
              · simp [hcode, hsu, h1]
              · by_cases h2 : cfg.isEnabled <;> simp [hcode, hsu, h1, h2]
          · simp [hcode, hsu]
      · rcases getOut with _ | cfg
        · simp
        · by_cases h1 : cfg.isEnabled = false ∧ shouldUpdate = false
          · simp [h1]
          · by_cases h2 : cfg.isEnabled <;> simp [h1, h2]
            split <;> simp

/-- C2. In a versioned-bucket run with the latest-only filter unset, both
jobs are built, the non-latest job is created first and polled to a
terminal state; the latest job is created only if a terminal non-latest
result exists whose own success ratio meets the required threshold, and a
below-threshold non-latest result makes the run end immediately in the
threshold fatal exit with the latest job never created. -/
theorem run_versioned_dual_ordering (req : Rat)
    (nonVerPolls verPolls : List DescribeJobOutput) :
    getJobParamsShape false "" = JobInputParams.mk true true ∧
    (runJobsPhase (getJobParamsShape false "") req nonVerPolls verPolls).head? =
      some RunEvent.createNonLatestJob ∧
    (RunEvent.createLatestJob ∈ runJobsPhase (getJobParamsShape false "") req nonVerPolls verPolls →
      ∃ d, pollJobResult nonVerPolls = some d ∧ IsTerminal d.status = true ∧
        req ≤ GetJobSuccessThreshold [some d] ∧
        (runJobsPhase (getJobParamsShape false "") req nonVerPolls verPolls).take 3 =
          [RunEvent.createNonLatestJob, RunEvent.pollNonLatestJob, RunEvent.createLatestJob]) ∧
    (∀ d, pollJobResult nonVerPolls = some d →
      GetJobSuccessThreshold [some d] < req →
      runJobsPhase (getJobParamsShape false "") req nonVerPolls verPolls =
          [RunEvent.createNonLatestJob, RunEvent.pollNonLatestJob, RunEvent.thresholdGateFatal] ∧
        RunEvent.createLatestJob ∉
          runJobsPhase (getJobParamsShape false "") req nonVerPolls verPolls) := by
  have hshape : getJobParamsShape false "" = JobInputParams.mk true true := by
    simp [getJobParamsShape]
  rw [hshape]
  refine ⟨rfl, ?_, ?_, ?_⟩
  · cases hp : pollJobResult nonVerPolls with
    | none => simp [runJobsPhase, hp]
    | some d => simp [runJobsPhase, hp]
  · intro hmem
    cases hp : pollJobResult nonVerPolls with
    | none =>
      rw [runJobsPhase] at hmem
      simp [hp] at hmem
    | some d =>
      have hterm : IsTerminal d.status = true := by
        have hp2 : nonVerPolls.find? (fun x => IsTerminal x.status) = some d := hp
        simpa using List.find?_some hp2
      by_cases hthr : GetJobSuccessThreshold [some d] < req
      · rw [runJobsPhase] at hmem
        simp [hp, runVersionStage, hthr] at hmem
      · refine ⟨d, rfl, hterm, le_of_not_lt hthr, ?_⟩
        cases hv : pollJobResult verPolls with
        | none => simp [runJobsPhase, hp, runVersionStage, hthr, hv]
        | some v => simp [runJobsPhase, hp, runVersionStage, hthr, hv]
  · intro d hp hthr
    constructor
    · simp [runJobsPhase, hp, runVersionStage, hthr]
    · simp [runJobsPhase, hp, runVersionStage, hthr]

theorem objectDateDescending_nonpos_iff (a b : S3Object) :
    objectDateDescending a b ≤ 0 ↔ b.lastModified ≤ a.lastModified := by
  unfold objectDateDescending
  split_ifs with h1 h2 <;> omega

theorem objectDateDescending_le_trans (a b c : S3Object)
    (h1 : decide (objectDateDescending a b ≤ 0) = true)
    (h2 : decide (objectDateDescending b c ≤ 0) = true) :
    decide (objectDateDescending a c ≤ 0) = true := by
  simp only [decide_eq_true_eq, objectDateDescending_nonpos_iff] at h1 h2 ⊢
  omega

theorem objectDateDescending_le_total (a b : S3Object) :
    (decide (objectDateDescending a b ≤ 0) || decide (objectDateDescending b a ≤ 0)) = true := by
  simp only [Bool.or_eq_true, decide_eq_true_eq, objectDateDescending_nonpos_iff]
  omega

/-- C9. On a successful listing, `getLatestManifest` returns `notFound`
when no listed object has the manifest suffix and a last-modified time
strictly after the window start, and otherwise returns a qualifying
object whose last-modified time is maximal among all qualifying
objects. -/
theorem getLatestManifest_max (now : Int) (fa : InventoryManifestFinderArgs)
    (contents : List S3Object) :
    (manifestCandidates (windowStartHours now fa.dateWindow) contents = [] →
      getLatestManifest now fa (Except.ok contents) = LocatorOutcome.notFound) ∧
    (manifestCandidates (windowStartHours now fa.dateWindow) contents ≠ [] →
      ∃ o, getLatestManifest now fa (Except.ok contents) = LocatorOutcome.found o ∧
        o ∈ manifestCandidates (windowStartHours now fa.dateWindow) contents ∧
        ∀ o2 ∈ manifestCandidates (windowStartHours now fa.dateWindow) contents,
          o2.lastModified ≤ o.lastModified) := by
  constructor
  · intro h
    simp [getLatestManifest, h]
  · intro h
    have hne : (manifestCandidates (windowStartHours now fa.dateWindow) contents).isEmpty = false := by
      simpa [List.isEmpty_iff] using h
    cases hs : (manifestCandidates (windowStartHours now fa.dateWindow) contents).mergeSort
        (fun a b => decide (objectDateDescending a b ≤ 0)) with
    | nil =>
      exfalso
      have hperm := List.mergeSort_perm
        (manifestCandidates (windowStartHours now fa.dateWindow) contents)
        (fun a b => decide (objectDateDescending a b ≤ 0))
      rw [hs] at hperm
      exact h (hperm.symm.eq_nil)
    | cons o rest =>
      refine ⟨o, ?_, ?_, ?_⟩
      · simp [getLatestManifest, hne, hs]
      · have : o ∈ (manifestCandidates (windowStartHours now fa.dateWindow) contents).mergeSort
            (fun a b => decide (objectDateDescending a b ≤ 0)) := by
          rw [hs]
          exact List.mem_cons_self o rest
        exact List.mem_mergeSort.1 this
      · intro o2 ho2
        have hsorted := @List.sorted_mergeSort S3Object
          (fun a b => decide (objectDateDescending a b ≤ 0))
          objectDateDescending_le_trans objectDateDescending_le_total
          (manifestCandidates (windowStartHours now fa.dateWindow) contents)
        rw [hs] at hsorted
        have ho2s : o2 ∈ o :: rest := by
          rw [← hs]
          exact List.mem_mergeSort.2 ho2
        rcases List.mem_cons.1 ho2s with heq | hmem
        · subst heq
          exact le_refl _
        · have hle := (List.pairwise_cons.1 hsorted).1 o2 hmem
          have hdec : objectDateDescending o o2 ≤ 0 := of_decide_eq_true hle
          exact (objectDateDescending_nonpos_iff o o2).1 hdec

/-- C4. Under a parseable schema and a validated latest-only selector
(the command layer admits only "", "Yes", "No"): with versioning disabled
the query is the bare two-column projection with no predicates; with
versioning enabled, a set latest-only selector whose latest column is
missing from the schema is an error; otherwise the query carries exactly
the predicates of the spec's filter table — the latest equality predicate
('true' for Yes, 'false' for No) and the date predicate (BETWEEN for two
bounds, less-than for only a start bound, greater-than for only an end
bound), with the date predicate silently omitted when the last-updated
column is missing. -/
theorem getQueryExpression_predicates (fileSchema : String) (cols : List String)
    (startDt endDt : Option String) (latestOnly : String)
    (hschema : parseFileSchema fileSchema = some cols)
    (hlo : latestOnly = "" ∨ latestOnly = "Yes" ∨ latestOnly = "No") :
    GetQueryExpression fileSchema startDt endDt latestOnly true = Except.ok baseSelect.toSql ∧
    (0 < (trimStr latestOnly).length → getColumnName cols IsLatestColumn = none →
      GetQueryExpression fileSchema startDt endDt latestOnly false =
        Except.error (errMissingField IsLatestColumn fileSchema)) ∧
    ((latestOnly = "" ∨ getColumnName cols IsLatestColumn ≠ none) →
      GetQueryExpression fileSchema startDt endDt latestOnly false =
        Except.ok (SelectBuilder.toSql (SelectBuilder.mk ["s._1", "s._2"] "s3object s"
          (specPredicates cols startDt endDt latestOnly)))) := by
  refine ⟨by simp [GetQueryExpression], ?_, ?_⟩
  · intro hlen hmiss
    simp [GetQueryExpression, hschema, hlen, hmiss]
  · intro hok
    rcases hlo with rfl | rfl | rfl
    · have hlen0 : ¬ 0 < (trimStr "").length := by decide
      rcases startDt with _ | sdt <;> rcases endDt with _ | edt <;>
        cases hcol : getColumnName cols LastUpdatedColumn <;>
          simp [GetQueryExpression, hschema, hlen0, hcol, specPredicates,
            SelectBuilder.addWhere, baseSelect]
    · rcases hok with habs | hcol
      · exact absurd habs (by decide)
      · rcases Option.ne_none_iff_exists'.1 hcol with ⟨c, hc⟩
        have hlen : 0 < (trimStr "Yes").length := by decide
        rcases startDt with _ | sdt <;> rcases endDt with _ | edt <;>
          cases hcol2 : getColumnName cols LastUpdatedColumn <;>
            simp [GetQueryExpression, hschema, hlen, hc, hcol2, specPredicates,
              SelectBuilder.addWhere, baseSelect]
    · rcases hok with habs | hcol
      · exact absurd habs (by decide)
      · rcases Option.ne_none_iff_exists'.1 hcol with ⟨c, hc⟩
        have hlen : 0 < (trimStr "No").length := by decide
        rcases startDt with _ | sdt <;> rcases endDt with _ | edt <;>
          cases hcol2 : getColumnName cols LastUpdatedColumn <;>
            simp [GetQueryExpression, hschema, hlen, hc, hcol2, specPredicates,
              SelectBuilder.addWhere, baseSelect]

/-- C4 (witness). The predicate characterization evaluated at the
two-column schema "IsLatest,LastUpdated", a start bound only and the
latest-only selector "Yes". -/
theorem getQueryExpression_predicates_witness :
    GetQueryExpression "IsLatest,LastUpdated" (some "2023-09-30T12:00:00") none "Yes" false =
      Except.ok (SelectBuilder.toSql (SelectBuilder.mk ["s._1", "s._2"] "s3object s"
        (specPredicates ["IsLatest", "LastUpdated"] (some "2023-09-30T12:00:00") none "Yes"))) :=
  (getQueryExpression_predicates "IsLatest,LastUpdated" ["IsLatest", "LastUpdated"]
      (some "2023-09-30T12:00:00") none "Yes" (by decide)
      (Or.inr (Or.inl rfl))).2.2 (Or.inr (by decide))
